import Mathlib

/-!
Verification of the "open-with" plugin (src/main.ts): an Obsidian plugin that
registers commands and context-menu items launching external applications on
the active file, plus copy-path and reveal-in-explorer conveniences.

The embedding is a shallow one: the stateful plugin is modelled by pure
functions over an explicit settings state, and every host-visible side effect
(clipboard write, reveal, external launch, notice, command registration,
persistence) is reified as data in an event list returned by the operation.
-/

namespace OpenWith

/-- AppPair from src/main.ts lines 5-10: one registered external application. -/
structure AppPair where
  name : String
  code : String
  arguments : String
  showInMenu : Bool
deriving DecidableEq, Repr

/-- OpenWithSettings from src/main.ts lines 11-14. -/
structure OpenWithSettings where
  apps : List AppPair
  sysexpInFileMenu : Bool
deriving DecidableEq, Repr

/-- DEFAULT_SETTINGS from src/main.ts lines 16-19. -/
def DEFAULT_SETTINGS : OpenWithSettings :=
  { apps := [], sysexpInFileMenu := false }

/-- The host platform data the code consults in getAbsolutePathOfFile:
the Obsidian Platform.isDesktopApp flag and the navigator.platform string. -/
structure HostPlatform where
  isDesktopApp : Bool
  navigatorPlatform : String
deriving DecidableEq, Repr

/-- The condition of src/main.ts line 117 under which the code applies the
backslash substitution; this is how the program detects the Windows
operating-system family. -/
def isWin32 (pf : HostPlatform) : Bool :=
  pf.isDesktopApp && pf.navigatorPlatform == "Win32"

/-- Splitting of a character list at every occurrence of the separator; the
splitting a JS String.split with a one-character separator performs. Always
returns at least one segment. -/
def splitOnChar (sep : Char) : List Char → List (List Char)
  | [] => [[]]
  | c :: cs =>
      if c = sep then [] :: splitOnChar sep cs
      else
        match splitOnChar sep cs with
        | [] => [[c]]
        | s :: tail => (c :: s) :: tail

/-- The JS expression str.split(",") appearing in src/main.ts lines 72, 98
and 183: the argument string cut at every comma. On the empty string this
yields the one-element list holding the empty string, as JS split does. -/
def splitCommas (s : String) : List String :=
  (splitOnChar ',' s.data).map String.mk

/-- Interleaving of the separator between the segments of a split. -/
def joinSegs : List (List Char) → List Char
  | [] => []
  | [s] => s
  | s :: rest => s ++ '/' :: joinSegs rest

/-- Modelled from the spec: the external normalizePath collaborator (imported
from the obsidian package, not part of this repository) as described in the
specification, section 4.1: a normalization pass collapsing dot and dot-dot
segments and duplicate separators, keeping a leading separator. -/
def normalizePath (p : String) : String :=
  let segs := (splitOnChar '/' p.data).filter (fun s => !s.isEmpty && s != ['.'])
  let segs := segs.foldl (fun acc s => if s = ['.', '.'] then acc.dropLast else acc ++ [s]) []
  let lead : List Char := match p.data with
    | '/' :: _ => ['/']
    | _ => []
  String.mk (lead ++ joinSegs segs)

/-- The global slash-to-backslash replacement of src/main.ts line 118,
written as recursion over the characters of the string. -/
def replaceSlashes : List Char → List Char
  | [] => []
  | c :: cs => (if c = '/' then '\\' else c) :: replaceSlashes cs

/-- getAbsolutePathOfFile from src/main.ts lines 114-121. basePath is the
vault adapter base path, filePath the root-relative path of the file. -/
def getAbsolutePathOfFile (pf : HostPlatform) (basePath filePath : String) : String :=
  let path := normalizePath (basePath ++ "/" ++ filePath)
  if isWin32 pf then String.mk (replaceSlashes path.data) else path

/-- The host-visible side effects a command or menu action can perform. -/
inductive Effect where
  | clipboardWrite (text : String)
  | showItemInFolder (path : String)
  | launch (path : String) (target : String) (args : List String)
deriving DecidableEq, Repr

/-- Check callback of the copy-absolute-file-path command, src/main.ts lines
34-43: activeFile models this.app.workspace.getActiveFile() as the root-relative
path of the active file when one exists. Returns the availability boolean and
the list of performed side effects. -/
def copyAbsolutePathCheckCallback (pf : HostPlatform) (basePath : String)
    (activeFile : Option String) (checking : Bool) : Bool × List Effect :=
  match activeFile with
  | some file =>
      (true, if !checking then [Effect.clipboardWrite (getAbsolutePathOfFile pf basePath file)] else [])
  | none => (false, [])

/-- Check callback of the show-file-in-explorer command, src/main.ts lines 49-58. -/
def showFileInExplorerCheckCallback (pf : HostPlatform) (basePath : String)
    (activeFile : Option String) (checking : Bool) : Bool × List Effect :=
  match activeFile with
  | some file =>
      (true, if !checking then [Effect.showItemInFolder (getAbsolutePathOfFile pf basePath file)] else [])
  | none => (false, [])

/-- Check callback of the per-entry open command registered at load time,
src/main.ts lines 65-79; app is the registry entry the callback closes over. -/
def openFileWithCheckCallback (pf : HostPlatform) (basePath : String) (app : AppPair)
    (activeFile : Option String) (checking : Bool) : Bool × List Effect :=
  match activeFile with
  | some file =>
      (true, if !checking then
        [Effect.launch (getAbsolutePathOfFile pf basePath file) app.code (splitCommas app.arguments)]
      else [])
  | none => (false, [])

/-- Check callback of a command registered by the settings-tab add button,
src/main.ts lines 176-190; it closes over the code and args form strings. -/
def addedCommandCheckCallback (pf : HostPlatform) (basePath : String) (code args : String)
    (activeFile : Option String) (checking : Bool) : Bool × List Effect :=
  match activeFile with
  | some file =>
      (true, if !checking then
        [Effect.launch (getAbsolutePathOfFile pf basePath file) code (splitCommas args)]
      else [])
  | none => (false, [])

/-- One item of a file context menu: title, icon and the side effect the
onClick handler performs when the item is activated. -/
structure MenuItem where
  title : String
  icon : String
  onClickEffect : Effect
deriving DecidableEq, Repr

/-- fileMenuHandlerCreateNew from src/main.ts lines 88-112: the list of menu
items the handler appends to the context menu of the file at filePath, in
order. The forEach with the showInMenu guard is the filter-map; the trailing
conditional item comes from the sysexpInFileMenu check on lines 104-111. -/
def fileMenuHandlerCreateNew (pf : HostPlatform) (basePath : String)
    (settings : OpenWithSettings) (filePath : String) : List MenuItem :=
  (settings.apps.filter (fun app => app.showInMenu)).map (fun app =>
    { title := "Open with " ++ app.name
      icon := "popup-open"
      onClickEffect := Effect.launch (getAbsolutePathOfFile pf basePath filePath)
        app.code (splitCommas app.arguments) })
  ++ (if settings.sysexpInFileMenu then
        [{ title := "Show in system explorer"
           icon := "popup-open"
           onClickEffect := Effect.showItemInFolder (getAbsolutePathOfFile pf basePath filePath) }]
      else [])

/-- Identifier and display name of a command registered with the host. -/
structure Command where
  id : String
  name : String
deriving DecidableEq, Repr

/-- The commands registered by onload, src/main.ts lines 31-81, in
registration order: the copy command (line 32), the explorer command
(line 47), then one command per registry entry (lines 61-64). -/
def onloadCommands (settings : OpenWithSettings) : List Command :=
  [{ id := "copy-absolute-file-path", name := "Copy absolute Path of File to clipboard" },
   { id := "show-file-in-explorer", name := "Show File in system explorer" }]
  ++ settings.apps.map (fun app =>
       { id := "open-file-with-" ++ app.name.toLower, name := "Open File with " ++ app.name })

/-- A host-visible action of a settings-tab button or toggle handler. -/
inductive UiEvent where
  | registerCommand (c : Command)
  | showNotice (text : String)
  | persistSettings (s : OpenWithSettings)
  | refreshDisplay
deriving DecidableEq, Repr

/-- The add-button onClick handler, src/main.ts lines 165-198: name, code
and args are the values read from the three text fields. Returns the new
settings state and the host-visible actions in program order. In the source
the guard is JS truthiness of the two strings, i.e. non-emptiness. -/
def addButtonOnClick (settings : OpenWithSettings) (name code args : String) :
    OpenWithSettings × List UiEvent :=
  if name != "" && code != "" then
    let newSettings : OpenWithSettings :=
      { settings with
        apps := settings.apps ++ [{ name := name, code := code, arguments := args, showInMenu := false }] }
    (newSettings,
     [UiEvent.registerCommand
        { id := "open-file-with-" ++ name.toLower, name := "Open File with " ++ name },
      UiEvent.persistSettings newSettings,
      UiEvent.refreshDisplay])
  else
    (settings, [UiEvent.showNotice "Display Name & Path/Command are always neccessary."])

/-- The Array.prototype.remove of the host (indexOf followed by splice):
removes the first occurrence of the given element. In the running program the
argument is one of the array elements by reference, and object references are
pairwise distinct, so first-occurrence removal deletes exactly that element. -/
def removeFirst : List AppPair → AppPair → List AppPair
  | [], _ => []
  | b :: rest, a => if b = a then rest else b :: removeFirst rest a

/-- The remove-button onClick handler, src/main.ts lines 215-220: notice,
removal from the apps array, save, display refresh, in program order. -/
def removeButtonOnClick (settings : OpenWithSettings) (app : AppPair) :
    OpenWithSettings × List UiEvent :=
  let newSettings : OpenWithSettings := { settings with apps := removeFirst settings.apps app }
  (newSettings,
   [UiEvent.showNotice "You need to restart Obsidian for these changes to take effect.",
    UiEvent.persistSettings newSettings,
    UiEvent.refreshDisplay])

/-- Replacement of the element at position i of a list by f of it; positions
out of range leave the list unchanged. -/
def modifyAt (f : AppPair → AppPair) : List AppPair → Nat → List AppPair
  | [], _ => []
  | a :: rest, 0 => f a :: rest
  | a :: rest, n + 1 => a :: modifyAt f rest n

/-- The showInMenu toggle onChange handler, src/main.ts lines 207-210, for
the registry entry at position i: app.showInMenu = value, then save. -/
def showInMenuToggleOnChange (settings : OpenWithSettings) (i : Nat) (value : Bool) :
    OpenWithSettings × List UiEvent :=
  let newSettings : OpenWithSettings :=
    { settings with apps := modifyAt (fun a => { a with showInMenu := value }) settings.apps i }
  (newSettings, [UiEvent.persistSettings newSettings])

/-- The sysexpInFileMenu toggle onChange handler, src/main.ts lines 227-230:
the settings field is assigned the new value, then save. -/
def sysexpToggleOnChange (settings : OpenWithSettings) (value : Bool) :
    OpenWithSettings × List UiEvent :=
  let newSettings : OpenWithSettings := { settings with sysexpInFileMenu := value }
  (newSettings, [UiEvent.persistSettings newSettings])

/-- The persisted settings document as loadData returns it: an arbitrary
partial object, each top-level field either absent or present. -/
structure PersistedData where
  apps : Option (List AppPair)
  sysexpInFileMenu : Option Bool
deriving DecidableEq, Repr

/-- loadSettings from src/main.ts lines 123-125: Object.assign of the loaded
document over a copy of DEFAULT_SETTINGS, field by field at the top level; a
null loadData result leaves the defaults. -/
def loadSettings (d : Option PersistedData) : OpenWithSettings :=
  match d with
  | none => DEFAULT_SETTINGS
  | some d =>
      { apps := d.apps.getD DEFAULT_SETTINGS.apps
        sysexpInFileMenu := d.sysexpInFileMenu.getD DEFAULT_SETTINGS.sysexpInFileMenu }

/-- saveSettings from src/main.ts lines 127-129: writes the complete current
in-memory state, every field present. -/
def saveSettings (s : OpenWithSettings) : PersistedData :=
  { apps := some s.apps, sysexpInFileMenu := some s.sysexpInFileMenu }

theorem replaceSlashes_eq_map (l : List Char) :
    replaceSlashes l = l.map (fun c => if c = '/' then '\\' else c) := by
  induction l with
  | nil => rfl
  | cons c cs ih => simp [replaceSlashes, ih]

theorem slash_not_mem_replaceSlashes (l : List Char) : '/' ∉ replaceSlashes l := by
  induction l with
  | nil => simp [replaceSlashes]
  | cons c cs ih =>
      simp only [replaceSlashes, List.mem_cons, not_or]
      refine ⟨?_, ih⟩
      by_cases h : c = '/' <;> simp [h]
      exact fun hc => h hc.symm

/-- C1: for every registered command (copy-absolute-file-path,
show-file-in-explorer, each per-entry open command, and commands added from
the settings tab), the check callback returns false and performs no side
effect when no document is focused, regardless of the checking flag; when a
document is focused it returns true, and the side effect (clipboard write,
reveal, or launch) is performed exactly when the checking flag is false. -/
theorem claim_C1_check_callbacks (pf : HostPlatform) (base : String) (app : AppPair)
    (code args : String) (checking : Bool) (f : String) :
    copyAbsolutePathCheckCallback pf base none checking = (false, []) ∧
    showFileInExplorerCheckCallback pf base none checking = (false, []) ∧
    openFileWithCheckCallback pf base app none checking = (false, []) ∧
    addedCommandCheckCallback pf base code args none checking = (false, []) ∧
    copyAbsolutePathCheckCallback pf base (some f) true = (true, []) ∧
    copyAbsolutePathCheckCallback pf base (some f) false
      = (true, [Effect.clipboardWrite (getAbsolutePathOfFile pf base f)]) ∧
    showFileInExplorerCheckCallback pf base (some f) true = (true, []) ∧
    showFileInExplorerCheckCallback pf base (some f) false
      = (true, [Effect.showItemInFolder (getAbsolutePathOfFile pf base f)]) ∧
    openFileWithCheckCallback pf base app (some f) true = (true, []) ∧
    openFileWithCheckCallback pf base app (some f) false
      = (true, [Effect.launch (getAbsolutePathOfFile pf base f) app.code (splitCommas app.arguments)]) ∧
    addedCommandCheckCallback pf base code args (some f) true = (true, []) ∧
    addedCommandCheckCallback pf base code args (some f) false
      = (true, [Effect.launch (getAbsolutePathOfFile pf base f) code (splitCommas args)]) :=
  ⟨rfl, rfl, rfl, rfl, rfl, rfl, rfl, rfl, rfl, rfl, rfl, rfl⟩

/-- C2: for every document with relative path P and content root base path R,
the resolved absolute path equals normalizePath of R ++ "/" ++ P; when the
code detects the Windows family (desktop app with navigator platform Win32),
every forward slash of that normalized result is replaced by a backslash (the
result is the character map of the normalized string and holds no forward
slash); on every other platform no separator substitution happens. -/
theorem claim_C2_path_resolution (pf : HostPlatform) (R P : String) :
    (isWin32 pf = true →
       (getAbsolutePathOfFile pf R P).data
         = (normalizePath (R ++ "/" ++ P)).data.map (fun c => if c = '/' then '\\' else c) ∧
       '/' ∉ (getAbsolutePathOfFile pf R P).data) ∧
    (isWin32 pf = false → getAbsolutePathOfFile pf R P = normalizePath (R ++ "/" ++ P)) := by
  constructor
  · intro h
    simp only [getAbsolutePathOfFile, h, if_pos]
    exact ⟨replaceSlashes_eq_map _, slash_not_mem_replaceSlashes _⟩
  · intro h
    simp [getAbsolutePathOfFile, h]

/-- Witness of C2 at concrete inputs: a Windows desktop platform and a
non-Windows platform, with root /vault and relative path notes/a.md. -/
theorem claim_C2_path_resolution_witness :
    (getAbsolutePathOfFile { isDesktopApp := true, navigatorPlatform := "Win32" } "/vault" "notes/a.md").data
      = (normalizePath ("/vault" ++ "/" ++ "notes/a.md")).data.map (fun c => if c = '/' then '\\' else c) ∧
    getAbsolutePathOfFile { isDesktopApp := false, navigatorPlatform := "Linux" } "/vault" "notes/a.md"
      = normalizePath ("/vault" ++ "/" ++ "notes/a.md") :=
  ⟨((claim_C2_path_resolution _ "/vault" "notes/a.md").1 (by decide)).1,
   (claim_C2_path_resolution _ "/vault" "notes/a.md").2 (by decide)⟩

/-- The registry of the C3 scenario: a single entry named Code with launch
code "code", empty argument string and showInMenu set. -/
def codeScenarioSettings : OpenWithSettings :=
  { apps := [{ name := "Code", code := "code", arguments := "", showInMenu := true }]
    sysexpInFileMenu := false }

/-- C3 as stated is false: in the scenario registry, the menu item produced
for notes/a.md under root /vault (here on a non-Windows desktop platform)
requests a launch of "code" with argument list containing one empty string,
which differs from the empty argument list the claim states, because JS
String.split of the empty string at "," yields a one-element array. -/
theorem claim_C3_counterexample :
    (fileMenuHandlerCreateNew { isDesktopApp := true, navigatorPlatform := "Linux" } "/vault"
        codeScenarioSettings "notes/a.md").map MenuItem.onClickEffect
      = [Effect.launch "/vault/notes/a.md" "code" [""]] ∧
    Effect.launch "/vault/notes/a.md" "code" [""] ≠ Effect.launch "/vault/notes/a.md" "code" [] := by
  exact ⟨by decide, by decide⟩

/-- C3 amended: with the scenario registry, a context-menu event for file
notes/a.md under content root /vault produces a menu containing an item
titled "Open with Code", and activating that item requests a launch of
target "code" with the one-element argument list holding the empty string
and path /vault/notes/a.md, with each slash turned into a backslash on a
platform the code detects as Windows. -/
theorem claim_C3_menu_scenario (pf : HostPlatform) :
    (fileMenuHandlerCreateNew pf "/vault" codeScenarioSettings "notes/a.md").map
        (fun it => (it.title, it.onClickEffect))
      = [("Open with Code",
          Effect.launch (if isWin32 pf then "\\vault\\notes\\a.md" else "/vault/notes/a.md")
            "code" [""])] := by
  cases h : isWin32 pf <;>
    simp only [fileMenuHandlerCreateNew, codeScenarioSettings, getAbsolutePathOfFile, h] <;>
    decide

/-- C4: the add operation with an empty name or an empty code leaves the
settings (hence the Registry length) unchanged and produces only a transient
notice; with both non-empty, the apps list grows by exactly one, the new
entry is appended at the end, and its showInMenu field defaults to false. -/
theorem claim_C4_add_validation (s : OpenWithSettings) (name code args : String) :
    (name = "" ∨ code = "" →
       (addButtonOnClick s name code args).1 = s ∧
       (addButtonOnClick s name code args).2
         = [UiEvent.showNotice "Display Name & Path/Command are always neccessary."]) ∧
    (name ≠ "" → code ≠ "" →
       (addButtonOnClick s name code args).1.apps
         = s.apps ++ [{ name := name, code := code, arguments := args, showInMenu := false }] ∧
       (addButtonOnClick s name code args).1.apps.length = s.apps.length + 1) := by
  constructor
  · intro h
    have hguard : (name != "" && code != "") = false := by
      cases h with
      | inl h => simp [h]
      | inr h => simp [h]
    simp [addButtonOnClick, hguard]
  · intro h1 h2
    have hguard : (name != "" && code != "") = true := by simp [h1, h2]
    simp [addButtonOnClick, hguard]

/-- Witness of C4 at concrete inputs: a rejected add with empty name, and an
accepted add of a fresh entry on the empty registry. -/
theorem claim_C4_add_validation_witness :
    (addButtonOnClick DEFAULT_SETTINGS "" "code" "").1 = DEFAULT_SETTINGS ∧
    (addButtonOnClick DEFAULT_SETTINGS "A" "a" "").1.apps
      = [{ name := "A", code := "a", arguments := "", showInMenu := false }] :=
  ⟨((claim_C4_add_validation DEFAULT_SETTINGS "" "code" "").1 (Or.inl rfl)).1,
   by
     have h := ((claim_C4_add_validation DEFAULT_SETTINGS "A" "a" "").2
       (by decide) (by decide)).1
     simpa [DEFAULT_SETTINGS] using h⟩

/-- C5: on each context-menu event the live Registry is iterated: the
produced menu holds, in registry order, exactly one item labeled
"Open with {name}" for every entry with showInMenu true, whose activation
performs exactly the effects the corresponding open command performs when
executed (checking false); and exactly one extra "Show in system explorer"
item, performing the reveal, when sysexpInFileMenu is true, none when it is
false. -/
theorem claim_C5_menu_mirrors_registry (pf : HostPlatform) (base : String)
    (s : OpenWithSettings) (filePath : String) :
    (fileMenuHandlerCreateNew pf base s filePath).map (fun it => (it.title, [it.onClickEffect]))
      = (s.apps.filter (fun a => a.showInMenu)).map (fun a =>
          ("Open with " ++ a.name, (openFileWithCheckCallback pf base a (some filePath) false).2))
        ++ (if s.sysexpInFileMenu then
              [("Show in system explorer",
                [Effect.showItemInFolder (getAbsolutePathOfFile pf base filePath)])]
            else []) := by
  cases h : s.sysexpInFileMenu <;>
    simp [fileMenuHandlerCreateNew, openFileWithCheckCallback, h]

/-- C6: loadSettings merges the persisted document field by field over the
defaults (a present field replaces the default wholesale, an absent one
falls back to it), and load then save then load is idempotent: reloading
the saved image of a load yields the same settings. -/
theorem claim_C6_load_save_load (d : Option PersistedData) :
    loadSettings (some (saveSettings (loadSettings d))) = loadSettings d ∧
    loadSettings none = DEFAULT_SETTINGS ∧
    (∀ p : PersistedData,
       (loadSettings (some p)).apps = p.apps.getD DEFAULT_SETTINGS.apps ∧
       (loadSettings (some p)).sysexpInFileMenu
         = p.sysexpInFileMenu.getD DEFAULT_SETTINGS.sysexpInFileMenu) := by
  refine ⟨?_, rfl, fun p => ⟨rfl, rfl⟩⟩
  cases d <;> rfl

theorem removeFirst_length_of_mem {l : List AppPair} {a : AppPair} (h : a ∈ l) :
    (removeFirst l a).length + 1 = l.length := by
  induction l with
  | nil => cases h
  | cons b rest ih =>
      by_cases hb : b = a
      · simp [removeFirst, hb]
      · have hmem : a ∈ rest := by
          cases h with
          | head => exact absurd rfl hb
          | tail _ h => exact h
        simp [removeFirst, hb, ih hmem]

theorem removeFirst_of_not_mem {l : List AppPair} {a : AppPair} (h : a ∉ l) :
    removeFirst l a = l := by
  induction l with
  | nil => rfl
  | cons b rest ih =>
      have hb : b ≠ a := fun hba => h (hba ▸ List.mem_cons_self b rest)
      have hrest : a ∉ rest := fun hm => h (List.mem_cons_of_mem b hm)
      simp [removeFirst, hb, ih hrest]

theorem not_mem_removeFirst_of_count_one {l : List AppPair} {a : AppPair}
    (h : l.count a = 1) : a ∉ removeFirst l a := by
  induction l with
  | nil => simp [removeFirst]
  | cons b rest ih =>
      by_cases hb : b = a
      · subst hb
        have : rest.count b = 0 := by
          have := h
          rw [List.count_cons_self] at this
          omega
        simp [removeFirst, List.count_eq_zero.mp this]
      · have hcount : rest.count a = 1 := by
          have := h
          rw [List.count_cons_of_ne (fun hab => hb hab.symm)] at this
          exact this
        intro hmem
        simp only [removeFirst, if_neg hb, List.mem_cons] at hmem
        cases hmem with
        | inl h1 => exact hb h1.symm
        | inr h2 => exact ih hcount h2

/-- C7: removing an entry present in the Registry (present exactly once, as
holds for the pairwise-distinct object references of the running program)
decreases the Registry length by exactly one and the entry is absent from
the result; removing a non-present entry leaves the settings unchanged. -/
theorem claim_C7_remove (s : OpenWithSettings) (a : AppPair) :
    (a ∈ s.apps → s.apps.count a = 1 →
       (removeButtonOnClick s a).1.apps.length + 1 = s.apps.length ∧
       a ∉ (removeButtonOnClick s a).1.apps) ∧
    (a ∉ s.apps → (removeButtonOnClick s a).1 = s) := by
  constructor
  · intro hmem hcount
    exact ⟨removeFirst_length_of_mem hmem, not_mem_removeFirst_of_count_one hcount⟩
  · intro hnot
    simp [removeButtonOnClick, removeFirst_of_not_mem hnot]

/-- Witness of C7 at concrete inputs: removing the sole entry of a
one-entry registry, and removing an absent entry from the empty registry. -/
theorem claim_C7_remove_witness :
    (removeButtonOnClick codeScenarioSettings
        { name := "Code", code := "code", arguments := "", showInMenu := true }).1.apps.length + 1
      = codeScenarioSettings.apps.length ∧
    (removeButtonOnClick DEFAULT_SETTINGS
        { name := "Code", code := "code", arguments := "", showInMenu := true }).1
      = DEFAULT_SETTINGS :=
  ⟨((claim_C7_remove codeScenarioSettings _).1 (by decide) (by decide)).1,
   (claim_C7_remove DEFAULT_SETTINGS _).2 (by decide)⟩

/-- The ids of the commands an event list registers with the host. -/
def registeredCommandIds (events : List UiEvent) : List String :=
  events.filterMap (fun e =>
    match e with
    | UiEvent.registerCommand c => some c.id
    | _ => none)

/-- C8: the registered commands expose the stable identifiers of the
interface contract: copy-absolute-file-path for the clipboard command,
show-file-in-explorer for the reveal command, and open-file-with- followed
by the lowercased entry name for every registry entry command, both for the
commands registered at load time and for the one registered by a successful
add action. -/
theorem claim_C8_command_ids (s : OpenWithSettings) (name code args : String)
    (h1 : name ≠ "") (h2 : code ≠ "") :
    (onloadCommands s).map Command.id
      = ["copy-absolute-file-path", "show-file-in-explorer"]
        ++ s.apps.map (fun a => "open-file-with-" ++ a.name.toLower) ∧
    registeredCommandIds (addButtonOnClick s name code args).2
      = ["open-file-with-" ++ name.toLower] := by
  constructor
  · simp [onloadCommands]
  · have hguard : (name != "" && code != "") = true := by simp [h1, h2]
    simp [addButtonOnClick, hguard, registeredCommandIds]

/-- Witness of C8 at concrete inputs: the one-entry scenario registry and an
add of an entry named Code. -/
theorem claim_C8_command_ids_witness :
    (onloadCommands codeScenarioSettings).map Command.id
      = ["copy-absolute-file-path", "show-file-in-explorer"]
        ++ codeScenarioSettings.apps.map (fun a => "open-file-with-" ++ a.name.toLower) ∧
    registeredCommandIds (addButtonOnClick codeScenarioSettings "Code" "code" "").2
      = ["open-file-with-" ++ "Code".toLower] :=
  claim_C8_command_ids codeScenarioSettings "Code" "code" "" (by decide) (by decide)

/-- C9: a successful add action registers the new command with the host in
the same operation and before the new entry is persisted: in the action list
of the add button, the registration event occurs at an earlier position
than the persistence event, so the command is available without restart. -/
theorem claim_C9_register_before_persist (s : OpenWithSettings) (name code args : String)
    (h1 : name ≠ "") (h2 : code ≠ "") :
    ∃ i j : Nat, i < j ∧
      (addButtonOnClick s name code args).2[i]?
        = some (UiEvent.registerCommand
            { id := "open-file-with-" ++ name.toLower, name := "Open File with " ++ name }) ∧
      (addButtonOnClick s name code args).2[j]?
        = some (UiEvent.persistSettings (addButtonOnClick s name code args).1) := by
  have hguard : (name != "" && code != "") = true := by simp [h1, h2]
  refine ⟨0, 1, Nat.zero_lt_one, ?_, ?_⟩ <;> simp [addButtonOnClick, hguard]

/-- Witness of C9 at a concrete input: adding an entry named Code to the
default settings. -/
theorem claim_C9_register_before_persist_witness :
    ∃ i j : Nat, i < j ∧
      (addButtonOnClick DEFAULT_SETTINGS "Code" "code" "").2[i]?
        = some (UiEvent.registerCommand
            { id := "open-file-with-" ++ "Code".toLower, name := "Open File with " ++ "Code" }) ∧
      (addButtonOnClick DEFAULT_SETTINGS "Code" "code" "").2[j]?
        = some (UiEvent.persistSettings (addButtonOnClick DEFAULT_SETTINGS "Code" "code" "").1) :=
  claim_C9_register_before_persist DEFAULT_SETTINGS "Code" "code" "" (by decide) (by decide)

theorem modifyAt_length (f : AppPair → AppPair) (l : List AppPair) (i : Nat) :
    (modifyAt f l i).length = l.length := by
  induction l generalizing i with
  | nil => rfl
  | cons a rest ih =>
      cases i with
      | zero => rfl
      | succ i => simp [modifyAt, ih]

theorem modifyAt_getElem? (f : AppPair → AppPair) (l : List AppPair) (i j : Nat) :
    (modifyAt f l i)[j]? = if j = i then l[j]?.map f else l[j]? := by
  induction l generalizing i j with
  | nil => simp [modifyAt]
  | cons a rest ih =>
      cases i with
      | zero =>
          cases j with
          | zero => simp [modifyAt]
          | succ j => simp [modifyAt]
      | succ i =>
          cases j with
          | zero => simp [modifyAt]
          | succ j =>
              simp only [modifyAt, List.getElem?_cons_succ, ih]
              by_cases h : j = i <;> simp [h]

/-- C10: the toggles are frame-preserving. Setting showInMenu of the entry
at position i changes only that boolean of that entry (its name, code and
arguments and every other entry, the order, and sysexpInFileMenu are kept),
and setting sysexpInFileMenu changes only that flag, keeping the whole apps
sequence. -/
theorem claim_C10_toggle_frame (s : OpenWithSettings) (i : Nat) (v : Bool) :
    (showInMenuToggleOnChange s i v).1.apps.length = s.apps.length ∧
    (showInMenuToggleOnChange s i v).1.sysexpInFileMenu = s.sysexpInFileMenu ∧
    (showInMenuToggleOnChange s i v).1.apps[i]?
      = s.apps[i]?.map (fun a =>
          { name := a.name, code := a.code, arguments := a.arguments, showInMenu := v }) ∧
    (∀ j, j ≠ i → (showInMenuToggleOnChange s i v).1.apps[j]? = s.apps[j]?) ∧
    (sysexpToggleOnChange s v).1.apps = s.apps ∧
    (sysexpToggleOnChange s v).1.sysexpInFileMenu = v := by
  refine ⟨modifyAt_length _ _ _, rfl, ?_, ?_, rfl, rfl⟩
  · rw [show (showInMenuToggleOnChange s i v).1.apps
        = modifyAt (fun a => { a with showInMenu := v }) s.apps i from rfl]
    rw [modifyAt_getElem?]
    simp
  · intro j hj
    rw [show (showInMenuToggleOnChange s i v).1.apps
        = modifyAt (fun a => { a with showInMenu := v }) s.apps i from rfl]
    rw [modifyAt_getElem?, if_neg hj]

/-- Witness of C10 at concrete inputs: toggling the showInMenu flag of the
sole entry of the scenario registry off, and inspecting a distinct index. -/
theorem claim_C10_toggle_frame_witness :
    (showInMenuToggleOnChange codeScenarioSettings 0 false).1.apps.length
      = codeScenarioSettings.apps.length ∧
    (showInMenuToggleOnChange codeScenarioSettings 0 false).1.apps[1]?
      = codeScenarioSettings.apps[1]? :=
  ⟨(claim_C10_toggle_frame codeScenarioSettings 0 false).1,
   (claim_C10_toggle_frame codeScenarioSettings 0 false).2.2.2.1 1 (by decide)⟩

end OpenWith
